import Mathlib

/-!
Verification development for the EURES crawler core (src/main.py).

The crawler talks to an external HTTP service and drives a headless browser.
Both are modelled as oracles: the HTTP service as queues of scripted responses
(one queue for the search endpoint, one for the detail endpoint, consumed one
response per HTTP attempt), and the browser as a queue of credentials it would
mint on each invocation of obtain_cookies_via_selenium.  The log-scanning
algorithm inside the browser path (extract_cookies_from_logs) is modelled
faithfully on its own over synthetic network-log entries.

Every observable action of the code (HTTP attempt, browser acquisition,
credential save, per-page commit) is recorded in an event trace, so that the
claims about call counts and ordering can be stated and settled.
-/

/-- A two-part session credential: the session cookie header value plus the
XSRF token (src/main.py uses the pair throughout). -/
structure Credential where
  cookie : String
  xsrf : String
deriving DecidableEq

/-- Models Python str.strip applied on read and write of the XSRF file:
whitespace is removed from both ends. -/
def pyStrip (s : String) : String :=
  String.mk (((s.data.dropWhile Char.isWhitespace).reverse.dropWhile Char.isWhitespace).reverse)

/-- Parsed content of cookiefile.json: either unparseable (json.load raises,
caught, giving None) or a JSON object whose Cookie key may be absent. -/
inductive CookieFile
  | corrupt
  | jsonObj (cookieField : Option String)
deriving DecidableEq

/-- Content of xsrf_token.txt: either unreadable (read_text raises, caught)
or plain text. -/
inductive XsrfFile
  | unreadable
  | text (s : String)
deriving DecidableEq

/-- The two durable slots of the credential store; none = file does not exist. -/
structure Store where
  cookieFile : Option CookieFile
  xsrfFile : Option XsrfFile
deriving DecidableEq

/-- Models load_stored_cookie (src/main.py lines 58-64): returns the Cookie
field of cookiefile.json, or None when the file is missing, unreadable or the
key is absent; never raises. -/
def load_stored_cookie (st : Store) : Option String :=
  match st.cookieFile with
  | none => none
  | some CookieFile.corrupt => none
  | some (CookieFile.jsonObj v) => v

/-- Models save_cookie (src/main.py lines 66-68): the XSRF token is appended
to the cookie value before it is written to cookiefile.json. -/
def save_cookie (st : Store) (cookie_value xt : String) : Store :=
  { st with cookieFile := some (CookieFile.jsonObj (some (cookie_value ++ "; XSRF-TOKEN=" ++ xt))) }

/-- Models load_xsrf_token (src/main.py lines 70-76): reads and strips
xsrf_token.txt, None when missing or unreadable; never raises. -/
def load_xsrf_token (st : Store) : Option String :=
  match st.xsrfFile with
  | none => none
  | some XsrfFile.unreadable => none
  | some (XsrfFile.text s) => some (pyStrip s)

/-- Models save_xsrf_token (src/main.py lines 78-79): writes the stripped
token text. -/
def save_xsrf_token (st : Store) (token : String) : Store :=
  { st with xsrfFile := some (XsrfFile.text (pyStrip token)) }

/-- The combined save performed by reload_cookie (src/main.py lines 127-128):
save_cookie followed by save_xsrf_token; this is CredentialStore.save of the
specification. -/
def save_credential (st : Store) (c : Credential) : Store :=
  save_xsrf_token (save_cookie st c.cookie c.xsrf) c.xsrf

/-- The combined load performed by main (src/main.py lines 239-240):
load_stored_cookie paired with load_xsrf_token; this is CredentialStore.load
of the specification. -/
def load_credential (st : Store) : Option String × Option String :=
  (load_stored_cookie st, load_xsrf_token st)

/-! ### Network-log extraction (extract_cookies_from_logs, lines 81-109) -/

/-- Substring test on character lists, modelling the Python membership test
of a pattern inside a cookie string. -/
def listContains (pat : List Char) : List Char → Bool
  | [] => pat.isEmpty
  | c :: cs => pat.isPrefixOf (c :: cs) || listContains pat cs

/-- Models re.search of a literal marker followed by a nonempty run of
non-semicolon characters, returning the captured run at the first position
where the whole pattern matches. -/
def listCapture (pat : List Char) : List Char → Option (List Char)
  | [] => none
  | c :: cs =>
    if pat.isPrefixOf (c :: cs) then
      let run := ((c :: cs).drop pat.length).takeWhile (fun ch => ch ≠ ';')
      if run.isEmpty then listCapture pat cs else some run
    else listCapture pat cs

/-- String wrapper for listContains. -/
def containsSub (pat s : String) : Bool :=
  listContains pat.data s.data

/-- String wrapper for listCapture. -/
def captureAfter (pat s : String) : Option String :=
  (listCapture pat.data s.data).map (fun l => String.mk l)

/-- Marker searched for the session cookie. -/
def sessionMarker : String := "EURES_JVSE_SESSIONID="

/-- Marker searched for the XSRF token cookie. -/
def xsrfMarker : String := "XSRF-TOKEN="

/-- The Set-Cookie header value of a captured response: a raw string (split on
newlines by the code) or an already-split list. -/
inductive SetCookieVal
  | str (s : String)
  | lst (l : List String)
deriving DecidableEq

/-- Models Python str.split on a single separator character: the result always
has one more piece than there are separators, and an empty input yields one
empty piece. -/
def splitOnChar (sep : Char) : List Char → List (List Char)
  | [] => [[]]
  | c :: cs =>
    let r := splitOnChar sep cs
    if c = sep then [] :: r
    else
      match r with
      | [] => [[c]]
      | h :: t => (c :: h) :: t

/-- The list of individual cookie strings obtained from a Set-Cookie value
(src/main.py line 94). -/
def cookiesOf : SetCookieVal → List String
  | SetCookieVal.str s => (splitOnChar (Char.ofNat 10) s.data).map (fun l => String.mk l)
  | SetCookieVal.lst l => l

/-- Python falsiness of the Set-Cookie value (line 91): empty string or empty
list skips the entry. -/
def isFalsySetCookie : SetCookieVal → Bool
  | SetCookieVal.str s => s.isEmpty
  | SetCookieVal.lst l => l.isEmpty

/-- A parsed devtools message: its method and the Set-Cookie header of its
params, when present. -/
structure LogMsg where
  method : Option String
  setCookie : Option SetCookieVal
deriving DecidableEq

/-- One captured performance-log entry; malformed covers any entry whose
message fails to parse, which the code skips via its exception handler. -/
inductive LogEntry
  | malformed
  | msg (m : LogMsg)
deriving DecidableEq

/-- Processing of one cookie string (the body of the inner loop, lines 95-99).
The two assignments run in order; a marker present without a capturable value
raises (group on a failed search), which aborts the entry but keeps any
assignment already made.  The final Bool reports whether the entry raised. -/
def stepCookie (sid xt : Option String) (c : String) : Option String × Option String × Bool :=
  if containsSub sessionMarker c then
    match captureAfter sessionMarker c with
    | none => (sid, xt, true)
    | some v =>
      if containsSub xsrfMarker c then
        match captureAfter xsrfMarker c with
        | none => (some v, xt, true)
        | some w => (some v, some w, false)
      else (some v, xt, false)
  else
    if containsSub xsrfMarker c then
      match captureAfter xsrfMarker c with
      | none => (sid, xt, true)
      | some w => (sid, some w, false)
    else (sid, xt, false)

/-- Processing of all cookie strings of one entry; an exception stops the
remaining cookies of the entry. -/
def procCookies (sid xt : Option String) : List String → Option String × Option String × Bool
  | [] => (sid, xt, false)
  | c :: cs =>
    match stepCookie sid xt c with
    | (sid2, xt2, true) => (sid2, xt2, true)
    | (sid2, xt2, false) => procCookies sid2 xt2 cs

/-- The scanning loop of extract_cookies_from_logs (lines 83-104): entries in
order, non-matching or failing entries skipped, and the loop breaks at the end
of the first entry after which both values are present, unless that entry
raised (the break test sits inside the try block). -/
def scanLogs (sid xt : Option String) : List LogEntry → Option String × Option String
  | [] => (sid, xt)
  | e :: es =>
    match e with
    | LogEntry.malformed => scanLogs sid xt es
    | LogEntry.msg m =>
      if m.method ≠ some "Network.responseReceivedExtraInfo" then scanLogs sid xt es
      else
        match m.setCookie with
        | none => scanLogs sid xt es
        | some sc =>
          if isFalsySetCookie sc then scanLogs sid xt es
          else
            match procCookies sid xt (cookiesOf sc) with
            | (sid2, xt2, true) => scanLogs sid2 xt2 es
            | (sid2, xt2, false) =>
              if sid2.isSome && xt2.isSome then (sid2, xt2)
              else scanLogs sid2 xt2 es

/-- Models extract_cookies_from_logs (lines 81-109): none models the RuntimeError
raised when either value is missing after the scan; on success the session id
is returned re-embedded in its cookie-assignment form. -/
def extract_cookies_from_logs (logs : List LogEntry) : Option (String × String) :=
  match scanLogs none none logs with
  | (some sid, some xt) => some ("EURES_JVSE_SESSIONID=" ++ sid, xt)
  | _ => none

/-! ### Data model of listings and the jobs table -/

/-- One element of the jvs array of a search response, with exactly the keys
read by handle_pagination (lines 203-218); every key may be absent.  The five
structured sub-documents are abstracted by their serialized text, and the REAL
score column by a rational. -/
structure Job where
  id : Option String
  creationDate : Option String
  lastModificationDate : Option String
  title : Option String
  description : Option String
  numberOfPosts : Option Int
  locationMap : Option String
  euresFlag : Option String
  jobCategoriesCodes : Option String
  positionScheduleCodes : Option String
  positionOfferingCode : Option String
  employer : Option String
  availableLanguages : Option String
  score : Option Rat
deriving DecidableEq

/-- One row of the jobs table, column values as stored (the sub-document and
details columns hold json.dumps output). -/
structure Row where
  id : Option String
  creationDate : Option String
  lastModificationDate : Option String
  title : Option String
  description : Option String
  numberOfPosts : Option Int
  locationMap : String
  euresFlag : Option String
  jobCategoriesCodes : String
  positionScheduleCodes : String
  positionOfferingCode : Option String
  employer : String
  availableLanguages : String
  score : Option Rat
  details : String
deriving DecidableEq

/-- Models json.dumps applied to an optional sub-document already abstracted
by its serialized text: None serializes to the text null. -/
def dumps : Option String → String
  | none => "null"
  | some s => s

/-- The job_data row assembled by handle_pagination (lines 203-219) from a jvs
element and the result of the detail fetch. -/
def rowOf (j : Job) (detail : Option String) : Row :=
  { id := j.id
    creationDate := j.creationDate
    lastModificationDate := j.lastModificationDate
    title := j.title
    description := j.description
    numberOfPosts := j.numberOfPosts
    locationMap := dumps j.locationMap
    euresFlag := j.euresFlag
    jobCategoriesCodes := dumps j.jobCategoriesCodes
    positionScheduleCodes := dumps j.positionScheduleCodes
    positionOfferingCode := j.positionOfferingCode
    employer := dumps j.employer
    availableLanguages := dumps j.availableLanguages
    score := j.score
    details := dumps detail }

/-- Models INSERT OR REPLACE INTO jobs (lines 221-228) on a table whose
primary key is the id column: the conflicting row, if any, is deleted and the
new row inserted.  SQLite never treats NULL primary keys as conflicting, so a
row with an absent id is always inserted as a new row. -/
def upsert (tbl : List Row) (r : Row) : List Row :=
  match r.id with
  | none => tbl ++ [r]
  | some _ => tbl.filter (fun q => decide (q.id ≠ r.id)) ++ [r]

/-! ### The API client over scripted HTTP responses -/

/-- One scripted response of the search endpoint; body none models a payload
on which response.json() raises. -/
structure SearchBody where
  numberRecords : Option Nat
  jvs : Option (List Job)
deriving DecidableEq

/-- One HTTP response of the search endpoint. -/
structure SearchResp where
  status : Nat
  body : Option SearchBody
deriving DecidableEq

/-- One HTTP response of the detail endpoint; the document is abstracted by
its serialized text, body none models a payload on which response.json()
raises. -/
structure DetailResp where
  status : Nat
  body : Option String
deriving DecidableEq

/-- Models the ok field of a requests response: true for every status below
400. -/
def respOk (status : Nat) : Bool :=
  status < 400

/-- Observable actions of the crawler, in the order they happen: one event per
HTTP attempt (with the credential used), per browser acquisition, per
credential-file write and per database commit. -/
inductive Event
  | searchCall (page : Nat) (cookie xsrf : String)
  | detailCall (jobId : Option String) (cookie xsrf : String)
  | acquire (c : Credential)
  | saveCookieEv (cookie xsrf : String)
  | saveXsrfEv (xsrf : String)
  | commit
deriving DecidableEq

/-- True exactly on acquire events. -/
def Event.isAcquire : Event → Bool
  | Event.acquire _ => true
  | _ => false

/-- True exactly on search HTTP attempts. -/
def Event.isSearchCall : Event → Bool
  | Event.searchCall _ _ _ => true
  | _ => false

/-- True exactly on detail HTTP attempts. -/
def Event.isDetailCall : Event → Bool
  | Event.detailCall _ _ _ => true
  | _ => false

/-- True exactly on commit events. -/
def Event.isCommit : Event → Bool
  | Event.commit => true
  | _ => false

/-- Number of acquire events in a trace. -/
def countAcquires (l : List Event) : Nat := l.countP Event.isAcquire

/-- Number of search HTTP attempts in a trace. -/
def countSearchCalls (l : List Event) : Nat := l.countP Event.isSearchCall

/-- Number of detail HTTP attempts in a trace. -/
def countDetailCalls (l : List Event) : Nat := l.countP Event.isDetailCall

/-- Number of commits in a trace. -/
def countCommits (l : List Event) : Nat := l.countP Event.isCommit

/-- The parts of the crawler state touched by credential refresh: the queue of
credentials the browser oracle would mint, the durable store, and the event
trace. -/
structure Aux where
  credQ : List Credential
  store : Store
  events : List Event
deriving DecidableEq

/-- Models obtain_cookies_via_selenium (lines 111-123).  The browser run and
log scan are an external oracle here, modelled as the next credential of the
queue; an exhausted queue models the RuntimeError of
extract_cookies_from_logs, which propagates (the browser is torn down either
way).  The scan algorithm itself is modelled above. -/
def obtain_cookies_via_selenium (a : Aux) : Option (Credential × Aux) :=
  match a.credQ with
  | [] => none
  | c :: rest => some (c, { a with credQ := rest, events := a.events ++ [Event.acquire c] })

/-- Models reload_cookie (lines 125-129): mint a fresh credential, persist it
with save_cookie then save_xsrf_token, and return it. -/
def reload_cookie (a : Aux) : Option (String × String × Aux) :=
  match obtain_cookies_via_selenium a with
  | none => none
  | some (c, a1) =>
    let a2 : Aux := { a1 with store := save_cookie a1.store c.cookie c.xsrf,
                              events := a1.events ++ [Event.saveCookieEv c.cookie c.xsrf] }
    let a3 : Aux := { a2 with store := save_xsrf_token a2.store c.xsrf,
                              events := a2.events ++ [Event.saveXsrfEv c.xsrf] }
    some (c.cookie, c.xsrf, a3)

/-- Models make_api_request (lines 132-165) over the scripted response queue:
each attempt consumes one response; on 403 it reloads the credential and
recurses with the fresh one; otherwise it returns the parsed body (raising,
hence none, on an unparseable one) together with the credential in effect.
An exhausted script or a failed acquisition yields none. -/
def make_api_request (cookie xsrf : String) (page : Nat) :
    List SearchResp → Aux → Option (SearchBody × String × String × List SearchResp × Aux)
  | [], _ => none
  | r :: rest, a =>
    let a1 : Aux := { a with events := a.events ++ [Event.searchCall page cookie xsrf] }
    if r.status = 403 then
      match reload_cookie a1 with
      | none => none
      | some (c, x, a2) => make_api_request c x page rest a2
    else
      match r.body with
      | some b => some (b, cookie, xsrf, rest, a1)
      | none => none

/-- Models get_job_details (lines 167-183): on 403 it reloads the credential
and recurses; otherwise an ok status yields the parsed document (none, i.e. a
raised exception, when unparseable) and a non-ok status yields an absent
document.  The credential is not part of the result. -/
def get_job_details (jobId : Option String) (cookie xsrf : String) :
    List DetailResp → Aux → Option (Option String × List DetailResp × Aux)
  | [], _ => none
  | r :: rest, a =>
    let a1 : Aux := { a with events := a.events ++ [Event.detailCall jobId cookie xsrf] }
    if r.status = 403 then
      match reload_cookie a1 with
      | none => none
      | some (c, x, a2) => get_job_details jobId c x rest a2
    else
      if respOk r.status then
        match r.body with
        | some d => some (some d, rest, a1)
        | none => none
      else
        some (none, rest, a1)

/-! ### The ingestion pipeline (handle_pagination, lines 186-234) -/

/-- Whole crawler state: the two scripted response queues, the refresh state
and the jobs table. -/
structure CrawlState where
  searchQ : List SearchResp
  detailQ : List DetailResp
  aux : Aux
  db : List Row
deriving DecidableEq

/-- The page count computed at line 192: integer division of total plus 49 by
50. -/
def total_pages (total : Nat) : Nat := (total + 49) / 50

/-- The inner loop over one page of listings (lines 202-228): fetch the detail
of each listing with the page-level credential, assemble the row and upsert
it.  A raised detail fetch (none) aborts the whole run. -/
def processJobs (cookie xsrf : String) : List Job → List DetailResp → Aux → List Row →
    Option (List DetailResp × Aux × List Row)
  | [], dq, a, db => some (dq, a, db)
  | j :: js, dq, a, db =>
    match get_job_details j.id cookie xsrf dq a with
    | none => none
    | some (detail, dq2, a2) =>
      processJobs cookie xsrf js dq2 a2 (upsert db (rowOf j detail))

/-- The page loop of handle_pagination (lines 197-232): fetch the page,
process its listings (an absent jvs key reads as an empty list), commit, and
accumulate the page listings into the results.  The fixed inter-page sleep
has no observable effect in this model. -/
def crawlPages (cookie xsrf : String) : List Nat → List Job → CrawlState →
    Option (List Job × CrawlState)
  | [], results, s => some (results, s)
  | p :: ps, results, s =>
    match make_api_request cookie xsrf p s.searchQ s.aux with
    | none => none
    | some (resp, cookie2, xsrf2, sq2, a2) =>
      let jobs := resp.jvs.getD []
      match processJobs cookie2 xsrf2 jobs s.detailQ a2 s.db with
      | none => none
      | some (dq3, a3, db3) =>
        crawlPages cookie2 xsrf2 ps (results ++ jobs)
          (CrawlState.mk sq2 dq3 { a3 with events := a3.events ++ [Event.commit] } db3)

/-- Models handle_pagination (lines 186-234): an initial page-1 search learns
the record total (an absent numberRecords key reads as 0), the page count is
computed, and pages 1 through total_pages are crawled. -/
def handle_pagination (cookie xsrf : String) (s : CrawlState) : Option (List Job × CrawlState) :=
  match make_api_request cookie xsrf 1 s.searchQ s.aux with
  | none => none
  | some (resp, cookie2, xsrf2, sq2, a2) =>
    let total := resp.numberRecords.getD 0
    crawlPages cookie2 xsrf2 (List.range' 1 (total_pages total)) []
      (CrawlState.mk sq2 s.detailQ a2 s.db)

/-- A well-formed network-log entry of the kind the scan accepts, carrying a
single Set-Cookie string. -/
def entrySC (s : String) : LogEntry :=
  LogEntry.msg (LogMsg.mk (some "Network.responseReceivedExtraInfo") (some (SetCookieVal.str s)))

/-- The cookie strings of a log entry that the scanning loop actually
examines: empty for the entries the loop skips (malformed message, wrong
method, absent or falsy Set-Cookie header). -/
def entryCookies : LogEntry → List String
  | LogEntry.malformed => []
  | LogEntry.msg m =>
    if m.method ≠ some "Network.responseReceivedExtraInfo" then []
    else
      match m.setCookie with
      | none => []
      | some sc => if isFalsySetCookie sc then [] else cookiesOf sc

/-- Every session match in this cookie captures v and every xsrf match
captures w: v and w are the only values this cookie can contribute. -/
def UniformCookie (v w c : String) : Prop :=
  (containsSub sessionMarker c = true → captureAfter sessionMarker c = some v) ∧
  (containsSub xsrfMarker c = true → captureAfter xsrfMarker c = some w)

/-- Every scanned cookie of the log is uniform: v and w are the only values
the whole log can yield for the two markers. -/
def UniformLog (v w : String) (logs : List LogEntry) : Prop :=
  ∀ e ∈ logs, ∀ c ∈ entryCookies e, UniformCookie v w c

/-! ### Helper lemmas -/

/-- Upserting a row with a present id leaves that row as the unique row of the
table carrying this id, whatever the table held before. -/
theorem filter_upsert_eq_self (tbl : List Row) (r : Row) (i : String) (h : r.id = some i) :
    (upsert tbl r).filter (fun q => decide (q.id = some i)) = [r] := by
  unfold upsert
  rw [h]
  rw [List.filter_append, List.filter_filter]
  have hnil : tbl.filter (fun q => decide (q.id = some i) && decide (q.id ≠ some i)) = [] := by
    apply List.filter_eq_nil_iff.mpr
    intro q _
    by_cases hq : q.id = some i <;> simp [hq]
  rw [hnil]
  simp [h]

/-! ### Claim theorems -/

/-- C5: for every total of records reported by the first search response, the
page count computed at line 192 equals the ceiling of total divided by 50,
stated three ways: as the integer ceiling of the rational quotient, as the
ceiling division on naturals, and by the defining bounds; the boundary cases
0, 50 and 51 yield 0, 1 and 2 pages. -/
theorem c5_page_count_is_ceil (total : Nat) :
    (total_pages total : ℤ) = ⌈(total : ℚ) / 50⌉ ∧
    total_pages total = total ⌈/⌉ 50 ∧
    total ≤ 50 * total_pages total ∧ 50 * total_pages total < total + 50 ∧
    total_pages 0 = 0 ∧ total_pages 50 = 1 ∧ total_pages 51 = 2 := by
  have h1 : total ≤ 50 * total_pages total := by unfold total_pages; omega
  have h2 : 50 * total_pages total < total + 50 := by unfold total_pages; omega
  refine ⟨?_, rfl, h1, h2, rfl, rfl, rfl⟩
  symm
  rw [Int.ceil_eq_iff]
  constructor
  · rw [lt_div_iff₀ (by norm_num : (0:ℚ) < 50)]
    have h2q : ((50 * total_pages total : Nat) : ℚ) < ((total + 50 : Nat) : ℚ) :=
      Nat.cast_lt.mpr h2
    push_cast at h2q ⊢
    linarith
  · rw [div_le_iff₀ (by norm_num : (0:ℚ) < 50)]
    have h1q : ((total : Nat) : ℚ) ≤ ((50 * total_pages total : Nat) : ℚ) :=
      Nat.cast_le.mpr h1
    push_cast at h1q ⊢
    linarith

/-- C7: for any two rows a and b sharing the same (present) id, upserting a
and then b leaves exactly one row carrying that id, and that row is b in every
column; in particular upserting a twice leaves exactly one row equal to a.
Absent ids are excluded because SQLite never treats NULL primary keys as
conflicting. -/
theorem c7_upsert_last_write_wins (tbl : List Row) (a b : Row) (i : String)
    (ha : a.id = some i) (hb : b.id = some i) :
    (upsert (upsert tbl a) b).filter (fun q => decide (q.id = some i)) = [b] ∧
    (upsert (upsert tbl a) a).filter (fun q => decide (q.id = some i)) = [a] :=
  ⟨filter_upsert_eq_self (upsert tbl a) b i hb,
   filter_upsert_eq_self (upsert tbl a) a i ha⟩

/-- Witness for c7_upsert_last_write_wins at two concrete rows sharing id a. -/
theorem c7_upsert_last_write_wins_w :
    (upsert (upsert []
        (Row.mk (some "a") none none (some "t1") none none "m1" none "jc1" "ps1" none "e1" "al1" none "d1"))
        (Row.mk (some "a") none none (some "t2") none none "m2" none "jc2" "ps2" none "e2" "al2" none "d2")).filter
        (fun q => decide (q.id = some "a")) =
      [Row.mk (some "a") none none (some "t2") none none "m2" none "jc2" "ps2" none "e2" "al2" none "d2"] ∧
    (upsert (upsert []
        (Row.mk (some "a") none none (some "t1") none none "m1" none "jc1" "ps1" none "e1" "al1" none "d1"))
        (Row.mk (some "a") none none (some "t1") none none "m1" none "jc1" "ps1" none "e1" "al1" none "d1")).filter
        (fun q => decide (q.id = some "a")) =
      [Row.mk (some "a") none none (some "t1") none none "m1" none "jc1" "ps1" none "e1" "al1" none "d1"] :=
  c7_upsert_last_write_wins []
    (Row.mk (some "a") none none (some "t1") none none "m1" none "jc1" "ps1" none "e1" "al1" none "d1")
    (Row.mk (some "a") none none (some "t2") none none "m2" none "jc2" "ps2" none "e2" "al2" none "d2")
    "a" rfl rfl

/-- C8 counterexample: the credential round-trip fails as claimed, because
save_cookie appends the XSRF token to the cookie value before writing it, so
the cookie slot read back differs from the saved cookie. -/
theorem c8_roundtrip_cex :
    load_credential (save_credential (Store.mk none none)
        (Credential.mk "EURES_JVSE_SESSIONID=abc" "tok")) ≠
      (some "EURES_JVSE_SESSIONID=abc", some "tok") := by
  decide

/-- C8 amended: after save, the cookie slot reads back as the saved cookie
with the XSRF token appended, and the token slot reads back exactly whenever
the token carries no surrounding whitespace; load on a missing store and on a
corrupted store returns absent in both slots (and, being total, never
raises). -/
theorem c8_roundtrip_amended (st : Store) (c : Credential)
    (h : pyStrip c.xsrf = c.xsrf) :
    load_credential (save_credential st c) =
      (some (c.cookie ++ "; XSRF-TOKEN=" ++ c.xsrf), some c.xsrf) ∧
    load_credential (Store.mk none none) = (none, none) ∧
    load_credential (Store.mk (some CookieFile.corrupt) (some XsrfFile.unreadable)) =
      (none, none) := by
  refine ⟨?_, rfl, rfl⟩
  simp [load_credential, save_credential, save_cookie, save_xsrf_token,
    load_stored_cookie, load_xsrf_token, h]

/-- Witness for c8_roundtrip_amended at a concrete store and credential. -/
theorem c8_roundtrip_amended_w :
    pyStrip "tok" = "tok" ∧
    (load_credential (save_credential (Store.mk none none)
        (Credential.mk "EURES_JVSE_SESSIONID=abc" "tok")) =
      (some ("EURES_JVSE_SESSIONID=abc" ++ "; XSRF-TOKEN=" ++ "tok"), some "tok") ∧
    load_credential (Store.mk none none) = (none, none) ∧
    load_credential (Store.mk (some CookieFile.corrupt) (some XsrfFile.unreadable)) =
      (none, none)) :=
  ⟨by decide,
   c8_roundtrip_amended (Store.mk none none)
     (Credential.mk "EURES_JVSE_SESSIONID=abc" "tok") (by decide)⟩

/-- C6 counterexample: extraction is not first-match-wins.  In a log where one
entry carries EURES_JVSE_SESSIONID=abc123 and a later entry carries
EURES_JVSE_SESSIONID=zzz9 before the XSRF token appears, the later match
overwrites the earlier one, so the claimed result is not returned. -/
theorem c6_extraction_cex :
    extract_cookies_from_logs
        [entrySC "EURES_JVSE_SESSIONID=abc123; Path=/",
         entrySC "EURES_JVSE_SESSIONID=zzz9; Path=/",
         entrySC "XSRF-TOKEN=xyz789; Path=/"] =
      some ("EURES_JVSE_SESSIONID=zzz9", "xyz789") ∧
    extract_cookies_from_logs
        [entrySC "EURES_JVSE_SESSIONID=abc123; Path=/",
         entrySC "EURES_JVSE_SESSIONID=zzz9; Path=/",
         entrySC "XSRF-TOKEN=xyz789; Path=/"] ≠
      some ("EURES_JVSE_SESSIONID=abc123", "xyz789") := by
  constructor <;> decide

/-- A cookie whose session capture succeeds overwrites the session slot,
whatever it held before. -/
theorem stepCookie_overwrites_session (sid xt : Option String) (c u : String)
    (hc : containsSub sessionMarker c = true) (h : captureAfter sessionMarker c = some u) :
    (stepCookie sid xt c).1 = some u := by
  unfold stepCookie
  by_cases hx : containsSub xsrfMarker c = true
  · cases hcap : captureAfter xsrfMarker c <;> simp [hc, h, hx, hcap]
  · simp [hc, h, hx]

/-- A cookie whose xsrf capture succeeds overwrites the xsrf slot, whatever it
held before, provided the session part of the cookie does not raise first. -/
theorem stepCookie_overwrites_xsrf (sid xt : Option String) (c u : String)
    (hsafe : containsSub sessionMarker c = true → captureAfter sessionMarker c ≠ none)
    (hc : containsSub xsrfMarker c = true) (h : captureAfter xsrfMarker c = some u) :
    (stepCookie sid xt c).2.1 = some u := by
  unfold stepCookie
  by_cases hs : containsSub sessionMarker c = true
  · cases hcap : captureAfter sessionMarker c with
    | none => exact absurd hcap (hsafe hs)
    | some v => simp [hs, hcap, hc, h]
  · simp [hs, hc, h]

/-- A cookie without the session marker leaves the session slot unchanged,
whether or not its xsrf part raises. -/
theorem stepCookie_fst_of_no_session (sid xt : Option String) (c : String)
    (h : containsSub sessionMarker c = false) :
    (stepCookie sid xt c).1 = sid := by
  unfold stepCookie
  by_cases hx : containsSub xsrfMarker c = true
  · cases hcap : captureAfter xsrfMarker c <;> simp [h, hx, hcap]
  · simp [h, hx]

/-- A cookie without the xsrf marker leaves the xsrf slot unchanged, whether
or not its session part raises. -/
theorem stepCookie_snd_of_no_xsrf (sid xt : Option String) (c : String)
    (h : containsSub xsrfMarker c = false) :
    (stepCookie sid xt c).2.1 = xt := by
  unfold stepCookie
  by_cases hs : containsSub sessionMarker c = true
  · cases hcap : captureAfter sessionMarker c <;> simp [h, hs, hcap]
  · simp [h, hs]

/-- A uniform cookie never raises, only moves the slots towards the uniform
values, and sets each slot whenever its marker occurs. -/
theorem stepCookie_uniform (v w c : String) (sid xt : Option String)
    (hc : UniformCookie v w c)
    (hs : sid = none ∨ sid = some v) (hx : xt = none ∨ xt = some w) :
    ∃ sid2 xt2,
      stepCookie sid xt c = (sid2, xt2, false) ∧
      (sid2 = none ∨ sid2 = some v) ∧ (xt2 = none ∨ xt2 = some w) ∧
      (sid = some v → sid2 = some v) ∧ (xt = some w → xt2 = some w) ∧
      (containsSub sessionMarker c = true → sid2 = some v) ∧
      (containsSub xsrfMarker c = true → xt2 = some w) := by
  obtain ⟨h1, h2⟩ := hc
  by_cases hcs : containsSub sessionMarker c = true
  · by_cases hcx : containsSub xsrfMarker c = true
    · refine ⟨some v, some w, ?_, Or.inr rfl, Or.inr rfl, fun _ => rfl, fun _ => rfl,
        fun _ => rfl, fun _ => rfl⟩
      simp [stepCookie, hcs, hcx, h1 hcs, h2 hcx]
    · refine ⟨some v, xt, ?_, Or.inr rfl, hx, fun _ => rfl, fun h => h,
        fun _ => rfl, fun h => absurd h hcx⟩
      simp [stepCookie, hcs, hcx, h1 hcs]
  · by_cases hcx : containsSub xsrfMarker c = true
    · refine ⟨sid, some w, ?_, hs, Or.inr rfl, fun h => h, fun _ => rfl,
        fun h => absurd h hcs, fun _ => rfl⟩
      simp [stepCookie, hcs, hcx, h2 hcx]
    · refine ⟨sid, xt, ?_, hs, hx, fun h => h, fun h => h,
        fun h => absurd h hcs, fun h => absurd h hcx⟩
      simp [stepCookie, hcs, hcx]

/-- Over uniform cookies the per-entry loop never raises, only moves the slots
towards the uniform values, and sets each slot whenever its marker occurs in
some cookie of the entry. -/
theorem procCookies_uniform (v w : String) (cs : List String) :
    ∀ (sid xt : Option String),
      (∀ c ∈ cs, UniformCookie v w c) →
      (sid = none ∨ sid = some v) → (xt = none ∨ xt = some w) →
      ∃ sid2 xt2,
        procCookies sid xt cs = (sid2, xt2, false) ∧
        (sid2 = none ∨ sid2 = some v) ∧ (xt2 = none ∨ xt2 = some w) ∧
        (sid = some v → sid2 = some v) ∧ (xt = some w → xt2 = some w) ∧
        ((∃ c ∈ cs, containsSub sessionMarker c = true) → sid2 = some v) ∧
        ((∃ c ∈ cs, containsSub xsrfMarker c = true) → xt2 = some w) := by
  induction cs with
  | nil =>
    intro sid xt _ hs hx
    refine ⟨sid, xt, rfl, hs, hx, fun h => h, fun h => h, ?_, ?_⟩ <;>
      rintro ⟨c, hc, _⟩ <;> simp at hc
  | cons c cs ih =>
    intro sid xt hall hs hx
    obtain ⟨s1, x1, hstep, hs1, hx1, hms1, hmx1, hcs1, hcx1⟩ :=
      stepCookie_uniform v w c sid xt (hall c (List.mem_cons_self c cs)) hs hx
    obtain ⟨s2, x2, hrec, hs2, hx2, hms2, hmx2, hcs2, hcx2⟩ :=
      ih s1 x1 (fun d hd => hall d (List.mem_cons_of_mem c hd)) hs1 hx1
    refine ⟨s2, x2, ?_, hs2, hx2, fun h => hms2 (hms1 h), fun h => hmx2 (hmx1 h), ?_, ?_⟩
    · simp only [procCookies, hstep]
      exact hrec
    · rintro ⟨d, hd, hmatch⟩
      rcases List.mem_cons.mp hd with rfl | hd2
      · exact hms2 (hcs1 hmatch)
      · exact hcs2 ⟨d, hd2, hmatch⟩
    · rintro ⟨d, hd, hmatch⟩
      rcases List.mem_cons.mp hd with rfl | hd2
      · exact hmx2 (hcx1 hmatch)
      · exact hcx2 ⟨d, hd2, hmatch⟩

/-- If no cookie of the entry carries the session marker, the per-entry loop
leaves the session slot unchanged. -/
theorem procCookies_fst_of_no_session (cs : List String) :
    ∀ (sid xt : Option String), (∀ c ∈ cs, containsSub sessionMarker c = false) →
      (procCookies sid xt cs).1 = sid := by
  induction cs with
  | nil => intro sid xt _; rfl
  | cons c cs ih =>
    intro sid xt hall
    have h1 := stepCookie_fst_of_no_session sid xt c (hall c (List.mem_cons_self c cs))
    rcases hst : stepCookie sid xt c with ⟨s1, x1, b1⟩
    rw [hst] at h1
    simp only at h1
    cases b1 with
    | true => simp [procCookies, hst, h1]
    | false =>
      simp only [procCookies, hst]
      rw [ih s1 x1 (fun d hd => hall d (List.mem_cons_of_mem c hd))]
      exact h1

/-- If no cookie of the entry carries the xsrf marker, the per-entry loop
leaves the xsrf slot unchanged. -/
theorem procCookies_snd_of_no_xsrf (cs : List String) :
    ∀ (sid xt : Option String), (∀ c ∈ cs, containsSub xsrfMarker c = false) →
      (procCookies sid xt cs).2.1 = xt := by
  induction cs with
  | nil => intro sid xt _; rfl
  | cons c cs ih =>
    intro sid xt hall
    have h1 := stepCookie_snd_of_no_xsrf sid xt c (hall c (List.mem_cons_self c cs))
    rcases hst : stepCookie sid xt c with ⟨s1, x1, b1⟩
    rw [hst] at h1
    simp only at h1
    cases b1 with
    | true => simp [procCookies, hst, h1]
    | false =>
      simp only [procCookies, hst]
      rw [ih s1 x1 (fun d hd => hall d (List.mem_cons_of_mem c hd))]
      exact h1

/-- Shrinking an existence statement past an entry the scan skips. -/
theorem exists_cookie_shrink {p : String → Prop} (e : LogEntry) (es : List LogEntry)
    (hempty : entryCookies e = [])
    (h : ∃ d ∈ e :: es, ∃ c ∈ entryCookies d, p c) :
    ∃ d ∈ es, ∃ c ∈ entryCookies d, p c := by
  rcases h with ⟨d, hd, hc⟩
  rcases List.mem_cons.mp hd with rfl | h2
  · rcases hc with ⟨c, hc2, _⟩
    rw [hempty] at hc2
    simp at hc2
  · exact ⟨d, h2, hc⟩

/-- If no scanned cookie of the log carries the session marker, the scan ends
with an empty session slot. -/
theorem scanLogs_fst_of_no_session (logs : List LogEntry) :
    ∀ (xt : Option String),
      (∀ e ∈ logs, ∀ c ∈ entryCookies e, containsSub sessionMarker c = false) →
      (scanLogs none xt logs).1 = none := by
  induction logs with
  | nil => intro xt _; rfl
  | cons e es ih =>
    intro xt hall
    have halles : ∀ e2 ∈ es, ∀ c ∈ entryCookies e2, containsSub sessionMarker c = false :=
      fun e2 he2 => hall e2 (List.mem_cons_of_mem e he2)
    cases e with
    | malformed => simpa [scanLogs] using ih xt halles
    | msg m =>
      by_cases hm : m.method = some "Network.responseReceivedExtraInfo"
      case neg =>
        have hstep : scanLogs none xt (LogEntry.msg m :: es) = scanLogs none xt es := by
          simp [scanLogs, hm]
        rw [hstep]; exact ih xt halles
      case pos =>
      cases hsc : m.setCookie with
      | none =>
        have hstep : scanLogs none xt (LogEntry.msg m :: es) = scanLogs none xt es := by
          simp [scanLogs, hm, hsc]
        rw [hstep]; exact ih xt halles
      | some sc =>
        by_cases hf : isFalsySetCookie sc = true
        case pos =>
          have hstep : scanLogs none xt (LogEntry.msg m :: es) = scanLogs none xt es := by
            simp [scanLogs, hm, hsc, hf]
          rw [hstep]; exact ih xt halles
        case neg =>
          have hemp : entryCookies (LogEntry.msg m) = cookiesOf sc := by
            simp [entryCookies, hm, hsc, hf]
          have hfst := procCookies_fst_of_no_session (cookiesOf sc) none xt
            (fun d hd => hall (LogEntry.msg m) (List.mem_cons_self _ _) d (hemp ▸ hd))
          rcases hpc : procCookies none xt (cookiesOf sc) with ⟨s2, x2, b2⟩
          rw [hpc] at hfst
          simp only at hfst
          subst hfst
          cases b2 with
          | true =>
            have hstep : scanLogs none xt (LogEntry.msg m :: es) = scanLogs none x2 es := by
              simp [scanLogs, hm, hsc, hf, hpc]
            rw [hstep]; exact ih x2 halles
          | false =>
            have hstep : scanLogs none xt (LogEntry.msg m :: es) = scanLogs none x2 es := by
              simp [scanLogs, hm, hsc, hf, hpc]
            rw [hstep]; exact ih x2 halles

/-- If no scanned cookie of the log carries the xsrf marker, the scan ends
with an empty xsrf slot. -/
theorem scanLogs_snd_of_no_xsrf (logs : List LogEntry) :
    ∀ (sid : Option String),
      (∀ e ∈ logs, ∀ c ∈ entryCookies e, containsSub xsrfMarker c = false) →
      (scanLogs sid none logs).2 = none := by
  induction logs with
  | nil => intro sid _; rfl
  | cons e es ih =>
    intro sid hall
    have halles : ∀ e2 ∈ es, ∀ c ∈ entryCookies e2, containsSub xsrfMarker c = false :=
      fun e2 he2 => hall e2 (List.mem_cons_of_mem e he2)
    cases e with
    | malformed => simpa [scanLogs] using ih sid halles
    | msg m =>
      by_cases hm : m.method = some "Network.responseReceivedExtraInfo"
      case neg =>
        have hstep : scanLogs sid none (LogEntry.msg m :: es) = scanLogs sid none es := by
          simp [scanLogs, hm]
        rw [hstep]; exact ih sid halles
      case pos =>
      cases hsc : m.setCookie with
      | none =>
        have hstep : scanLogs sid none (LogEntry.msg m :: es) = scanLogs sid none es := by
          simp [scanLogs, hm, hsc]
        rw [hstep]; exact ih sid halles
      | some sc =>
        by_cases hf : isFalsySetCookie sc = true
        case pos =>
          have hstep : scanLogs sid none (LogEntry.msg m :: es) = scanLogs sid none es := by
            simp [scanLogs, hm, hsc, hf]
          rw [hstep]; exact ih sid halles
        case neg =>
          have hemp : entryCookies (LogEntry.msg m) = cookiesOf sc := by
            simp [entryCookies, hm, hsc, hf]
          have hsnd := procCookies_snd_of_no_xsrf (cookiesOf sc) sid none
            (fun d hd => hall (LogEntry.msg m) (List.mem_cons_self _ _) d (hemp ▸ hd))
          rcases hpc : procCookies sid none (cookiesOf sc) with ⟨s2, x2, b2⟩
          rw [hpc] at hsnd
          simp only at hsnd
          subst hsnd
          cases b2 with
          | true =>
            have hstep : scanLogs sid none (LogEntry.msg m :: es) = scanLogs s2 none es := by
              simp [scanLogs, hm, hsc, hf, hpc]
            rw [hstep]; exact ih s2 halles
          | false =>
            have hstep : scanLogs sid none (LogEntry.msg m :: es) = scanLogs s2 none es := by
              simp [scanLogs, hm, hsc, hf, hpc]
            rw [hstep]; exact ih s2 halles

/-- Over a uniform log the scan ends with exactly the two uniform values as
soon as each marker occurs somewhere (or its slot is already set), whatever
the order, the duplicates, or the point at which the early break fires. -/
theorem scanLogs_uniform (v w : String) (logs : List LogEntry) :
    ∀ (sid xt : Option String),
      UniformLog v w logs →
      (sid = none ∨ sid = some v) → (xt = none ∨ xt = some w) →
      (sid = some v ∨ ∃ e ∈ logs, ∃ c ∈ entryCookies e, containsSub sessionMarker c = true) →
      (xt = some w ∨ ∃ e ∈ logs, ∃ c ∈ entryCookies e, containsSub xsrfMarker c = true) →
      scanLogs sid xt logs = (some v, some w) := by
  induction logs with
  | nil =>
    intro sid xt _ _ _ hes hex
    have h1 : sid = some v := by
      rcases hes with h | ⟨e, he, _⟩
      · exact h
      · simp at he
    have h2 : xt = some w := by
      rcases hex with h | ⟨e, he, _⟩
      · exact h
      · simp at he
    simp [scanLogs, h1, h2]
  | cons e es ih =>
    intro sid xt hall hs hx hes hex
    have halles : UniformLog v w es := fun d hd => hall d (List.mem_cons_of_mem e hd)
    cases e with
    | malformed =>
      have hstep : scanLogs sid xt (LogEntry.malformed :: es) = scanLogs sid xt es := by
        simp [scanLogs]
      rw [hstep]
      exact ih sid xt halles hs hx
        (hes.imp id (exists_cookie_shrink LogEntry.malformed es rfl))
        (hex.imp id (exists_cookie_shrink LogEntry.malformed es rfl))
    | msg m =>
      by_cases hm : m.method = some "Network.responseReceivedExtraInfo"
      case neg =>
        have hemp : entryCookies (LogEntry.msg m) = [] := by simp [entryCookies, hm]
        have hstep : scanLogs sid xt (LogEntry.msg m :: es) = scanLogs sid xt es := by
          simp [scanLogs, hm]
        rw [hstep]
        exact ih sid xt halles hs hx (hes.imp id (exists_cookie_shrink _ _ hemp))
          (hex.imp id (exists_cookie_shrink _ _ hemp))
      case pos =>
      cases hsc : m.setCookie with
      | none =>
        have hemp : entryCookies (LogEntry.msg m) = [] := by simp [entryCookies, hm, hsc]
        have hstep : scanLogs sid xt (LogEntry.msg m :: es) = scanLogs sid xt es := by
          simp [scanLogs, hm, hsc]
        rw [hstep]
        exact ih sid xt halles hs hx (hes.imp id (exists_cookie_shrink _ _ hemp))
          (hex.imp id (exists_cookie_shrink _ _ hemp))
      | some sc =>
        by_cases hf : isFalsySetCookie sc = true
        case pos =>
          have hemp : entryCookies (LogEntry.msg m) = [] := by simp [entryCookies, hm, hsc, hf]
          have hstep : scanLogs sid xt (LogEntry.msg m :: es) = scanLogs sid xt es := by
            simp [scanLogs, hm, hsc, hf]
          rw [hstep]
          exact ih sid xt halles hs hx (hes.imp id (exists_cookie_shrink _ _ hemp))
            (hex.imp id (exists_cookie_shrink _ _ hemp))
        case neg =>
          have hemp : entryCookies (LogEntry.msg m) = cookiesOf sc := by
            simp [entryCookies, hm, hsc, hf]
          obtain ⟨s2, x2, hpc, hs2, hx2, hms, hmx, hcs, hcx⟩ :=
            procCookies_uniform v w (cookiesOf sc) sid xt
              (fun d hd => hall (LogEntry.msg m) (List.mem_cons_self _ _) d (hemp ▸ hd)) hs hx
          have hstep : scanLogs sid xt (LogEntry.msg m :: es) =
              (if s2.isSome && x2.isSome then (s2, x2) else scanLogs s2 x2 es) := by
            simp [scanLogs, hm, hsc, hf, hpc]
          rw [hstep]
          by_cases hb : (s2.isSome && x2.isSome) = true
          case pos =>
            rw [if_pos hb]
            have hsv : s2 = some v := by
              rcases hs2 with rfl | h
              · simp at hb
              · exact h
            have hxw : x2 = some w := by
              rcases hx2 with rfl | h
              · simp at hb
              · exact h
            rw [hsv, hxw]
          case neg =>
            rw [if_neg hb]
            apply ih s2 x2 halles hs2 hx2
            · rcases hes with h | ⟨e2, he2, hc2⟩
              · exact Or.inl (hms h)
              · rcases List.mem_cons.mp he2 with rfl | h3
                · rcases hc2 with ⟨d, hd, hmatch⟩
                  exact Or.inl (hcs ⟨d, hemp ▸ hd, hmatch⟩)
                · exact Or.inr ⟨e2, h3, hc2⟩
            · rcases hex with h | ⟨e2, he2, hc2⟩
              · exact Or.inl (hmx h)
              · rcases List.mem_cons.mp he2 with rfl | h3
                · rcases hc2 with ⟨d, hd, hmatch⟩
                  exact Or.inl (hcx ⟨d, hemp ▸ hd, hmatch⟩)
                · exact Or.inr ⟨e2, h3, hc2⟩

/-- C6 amended: over every captured log, extraction scans entries in order
with each successful capture overwriting the stored value (last match wins,
stated universally at the cookie step), stops at the end of the first entry
after which both values are present (the remaining entries are never
scanned), returns the pair built from the two values whenever each marker
occurs somewhere and the log can only yield one value per marker — in
particular sessionCookie EURES_JVSE_SESSIONID=abc123 and xsrfToken xyz789
when those are the only matches — and, whenever either marker never matches
a scanned cookie, yields the acquisition error with no partial credential
(the result is none or carries both values, never one). -/
theorem c6_extraction_amended (logs : List LogEntry) (v w u : String)
    (sid xt : Option String) (c : String) (m : LogMsg) (sc : SetCookieVal)
    (s x : String) (es : List LogEntry) :
    (UniformLog v w logs →
      (∃ e ∈ logs, ∃ d ∈ entryCookies e, containsSub sessionMarker d = true) →
      (∃ e ∈ logs, ∃ d ∈ entryCookies e, containsSub xsrfMarker d = true) →
      extract_cookies_from_logs logs = some ("EURES_JVSE_SESSIONID=" ++ v, w)) ∧
    ((∀ e ∈ logs, ∀ d ∈ entryCookies e, containsSub sessionMarker d = false) →
      extract_cookies_from_logs logs = none) ∧
    ((∀ e ∈ logs, ∀ d ∈ entryCookies e, containsSub xsrfMarker d = false) →
      extract_cookies_from_logs logs = none) ∧
    (extract_cookies_from_logs logs = none ∨
      ∃ s2 x2, scanLogs none none logs = (some s2, some x2) ∧
        extract_cookies_from_logs logs = some ("EURES_JVSE_SESSIONID=" ++ s2, x2)) ∧
    (containsSub sessionMarker c = true → captureAfter sessionMarker c = some u →
      (stepCookie sid xt c).1 = some u) ∧
    ((containsSub sessionMarker c = true → captureAfter sessionMarker c ≠ none) →
      containsSub xsrfMarker c = true → captureAfter xsrfMarker c = some u →
      (stepCookie sid xt c).2.1 = some u) ∧
    (m.method = some "Network.responseReceivedExtraInfo" → m.setCookie = some sc →
      isFalsySetCookie sc = false →
      procCookies sid xt (cookiesOf sc) = (some s, some x, false) →
      scanLogs sid xt (LogEntry.msg m :: es) = (some s, some x)) := by
  refine ⟨?_, ?_, ?_, ?_, ?_, ?_, ?_⟩
  · intro hu hes hex
    have h := scanLogs_uniform v w logs none none hu (Or.inl rfl) (Or.inl rfl)
      (Or.inr hes) (Or.inr hex)
    simp [extract_cookies_from_logs, h]
  · intro hall
    have h := scanLogs_fst_of_no_session logs none hall
    rcases hscan : scanLogs none none logs with ⟨a, b⟩
    rw [hscan] at h
    simp only at h
    subst h
    cases b <;> simp [extract_cookies_from_logs, hscan]
  · intro hall
    have h := scanLogs_snd_of_no_xsrf logs none hall
    rcases hscan : scanLogs none none logs with ⟨a, b⟩
    rw [hscan] at h
    simp only at h
    subst h
    cases a <;> simp [extract_cookies_from_logs, hscan]
  · rcases hscan : scanLogs none none logs with ⟨a, b⟩
    cases a with
    | none => left; cases b <;> simp [extract_cookies_from_logs, hscan]
    | some s2 =>
      cases b with
      | none => left; simp [extract_cookies_from_logs, hscan]
      | some x2 =>
        right
        exact ⟨s2, x2, rfl, by simp [extract_cookies_from_logs, hscan]⟩
  · intro hc h
    exact stepCookie_overwrites_session sid xt c u hc h
  · intro hsafe hc h
    exact stepCookie_overwrites_xsrf sid xt c u hsafe hc h
  · intro hm hsc hf hpc
    simp [scanLogs, hm, hsc, hf, hpc]

/-- Witness for c6_extraction_amended: the spec scenario log yields the
abc123/xyz789 pair; single-marker logs yield the error; a capture overwrites
a previously stored value in either slot; and once an entry has produced both
values the following entries are not scanned. -/
theorem c6_extraction_amended_w :
    extract_cookies_from_logs
        [entrySC "EURES_JVSE_SESSIONID=abc123; Path=/",
         entrySC "XSRF-TOKEN=xyz789; Path=/"] =
      some ("EURES_JVSE_SESSIONID=" ++ "abc123", "xyz789") ∧
    extract_cookies_from_logs [entrySC "XSRF-TOKEN=xyz789; Path=/"] = none ∧
    extract_cookies_from_logs [entrySC "EURES_JVSE_SESSIONID=abc123; Path=/"] = none ∧
    (stepCookie (some "old") none "EURES_JVSE_SESSIONID=new7; Path=/").1 = some "new7" ∧
    (stepCookie none (some "oldx") "XSRF-TOKEN=new9; Path=/").2.1 = some "new9" ∧
    scanLogs none none
        (LogEntry.msg (LogMsg.mk (some "Network.responseReceivedExtraInfo")
            (some (SetCookieVal.str "EURES_JVSE_SESSIONID=aa1; XSRF-TOKEN=tt1"))) ::
          [entrySC "XSRF-TOKEN=tt2; Path=/"]) =
      (some "aa1", some "tt1") :=
  ⟨(c6_extraction_amended
      [entrySC "EURES_JVSE_SESSIONID=abc123; Path=/", entrySC "XSRF-TOKEN=xyz789; Path=/"]
      "abc123" "xyz789" "" none none "" (LogMsg.mk none none) (SetCookieVal.str "") "" "" []).1
      (by simp only [UniformLog, UniformCookie]; decide) (by decide) (by decide),
   (c6_extraction_amended [entrySC "XSRF-TOKEN=xyz789; Path=/"]
      "" "" "" none none "" (LogMsg.mk none none) (SetCookieVal.str "") "" "" []).2.1
      (by decide),
   (c6_extraction_amended [entrySC "EURES_JVSE_SESSIONID=abc123; Path=/"]
      "" "" "" none none "" (LogMsg.mk none none) (SetCookieVal.str "") "" "" []).2.2.1
      (by decide),
   (c6_extraction_amended [] "" "" "new7" (some "old") none
      "EURES_JVSE_SESSIONID=new7; Path=/" (LogMsg.mk none none) (SetCookieVal.str "") "" "" []).2.2.2.2.1
      (by decide) (by decide),
   (c6_extraction_amended [] "" "" "new9" none (some "oldx")
      "XSRF-TOKEN=new9; Path=/" (LogMsg.mk none none) (SetCookieVal.str "") "" "" []).2.2.2.2.2.1
      (by decide) (by decide) (by decide),
   (c6_extraction_amended [] "" "" "" none none ""
      (LogMsg.mk (some "Network.responseReceivedExtraInfo")
        (some (SetCookieVal.str "EURES_JVSE_SESSIONID=aa1; XSRF-TOKEN=tt1")))
      (SetCookieVal.str "EURES_JVSE_SESSIONID=aa1; XSRF-TOKEN=tt1") "aa1" "tt1"
      [entrySC "XSRF-TOKEN=tt2; Path=/"]).2.2.2.2.2.2
      rfl rfl (by decide) (by decide)⟩

/-- Unfolding step: a 403 search response costs one acquisition, persists the
fresh credential, and retries the same page with it. -/
theorem make_api_request_403_step (cookie xsrf : String) (page : Nat) (mb : Option SearchBody)
    (q : List SearchResp) (c : Credential) (cq : List Credential) (st : Store) (ev : List Event) :
    make_api_request cookie xsrf page (SearchResp.mk 403 mb :: q) (Aux.mk (c :: cq) st ev) =
      make_api_request c.cookie c.xsrf page q
        (Aux.mk cq (save_credential st c)
          (ev ++ [Event.searchCall page cookie xsrf, Event.acquire c,
                  Event.saveCookieEv c.cookie c.xsrf, Event.saveXsrfEv c.xsrf])) := by
  simp [make_api_request, reload_cookie, obtain_cookies_via_selenium, save_credential]

/-- Unfolding step: a 403 detail response costs one acquisition, persists the
fresh credential, and retries the same job id with it. -/
theorem get_job_details_403_step (jid : Option String) (cookie xsrf : String) (md : Option String)
    (q : List DetailResp) (c : Credential) (cq : List Credential) (st : Store) (ev : List Event) :
    get_job_details jid cookie xsrf (DetailResp.mk 403 md :: q) (Aux.mk (c :: cq) st ev) =
      get_job_details jid c.cookie c.xsrf q
        (Aux.mk cq (save_credential st c)
          (ev ++ [Event.detailCall jid cookie xsrf, Event.acquire c,
                  Event.saveCookieEv c.cookie c.xsrf, Event.saveXsrfEv c.xsrf])) := by
  simp [get_job_details, reload_cookie, obtain_cookies_via_selenium, save_credential]

/-- Unfolding step: a parseable 200 search response returns its body and the
credential used on this attempt. -/
theorem make_api_request_ok_step (cookie xsrf : String) (page : Nat) (body : SearchBody)
    (q : List SearchResp) (a : Aux) :
    make_api_request cookie xsrf page (SearchResp.mk 200 (some body) :: q) a =
      some (body, cookie, xsrf, q,
        { a with events := a.events ++ [Event.searchCall page cookie xsrf] }) := by
  simp [make_api_request]

/-- Unfolding step: a parseable 200 detail response returns its document. -/
theorem get_job_details_ok_step (jid : Option String) (cookie xsrf : String) (doc : String)
    (q : List DetailResp) (a : Aux) :
    get_job_details jid cookie xsrf (DetailResp.mk 200 (some doc) :: q) a =
      some (some doc, q,
        { a with events := a.events ++ [Event.detailCall jid cookie xsrf] }) := by
  simp [get_job_details, respOk]

/-- With k consecutive 403 search responses followed by a parseable success,
the logical search call performs exactly k acquisitions and k plus one HTTP
attempts before returning the success. -/
theorem make_api_request_consecutive_403 (creds : List Credential) :
    ∀ (cookie xsrf : String) (page : Nat) (body : SearchBody) (st : Store) (ev : List Event),
    ∃ c2 x2 st2 ev2,
      make_api_request cookie xsrf page
          (List.replicate creds.length (SearchResp.mk 403 none) ++ [SearchResp.mk 200 (some body)])
          (Aux.mk creds st ev) =
        some (body, c2, x2, [], Aux.mk [] st2 ev2) ∧
      countAcquires ev2 = countAcquires ev + creds.length ∧
      countSearchCalls ev2 = countSearchCalls ev + creds.length + 1 := by
  induction creds with
  | nil =>
    intro cookie xsrf page body st ev
    refine ⟨cookie, xsrf, st, ev ++ [Event.searchCall page cookie xsrf], ?_, ?_, ?_⟩
    · simp [make_api_request]
    · simp [countAcquires, List.countP_append, List.countP_cons, Event.isAcquire]
    · simp [countSearchCalls, List.countP_append, List.countP_cons, Event.isSearchCall]
  | cons c creds ih =>
    intro cookie xsrf page body st ev
    obtain ⟨c2, x2, st2, ev2, heq, hacq, hsea⟩ :=
      ih c.cookie c.xsrf page body (save_credential st c)
        (ev ++ [Event.searchCall page cookie xsrf, Event.acquire c,
                Event.saveCookieEv c.cookie c.xsrf, Event.saveXsrfEv c.xsrf])
    refine ⟨c2, x2, st2, ev2, ?_, ?_, ?_⟩
    · rw [List.length_cons, List.replicate_succ, List.cons_append, make_api_request_403_step]
      exact heq
    · rw [hacq]
      simp [countAcquires, List.countP_append, List.countP_cons, Event.isAcquire]
      omega
    · rw [hsea]
      simp [countSearchCalls, List.countP_append, List.countP_cons, Event.isSearchCall]
      omega

/-- With k consecutive 403 detail responses followed by a parseable success,
the logical detail call performs exactly k acquisitions and k plus one HTTP
attempts before returning the success. -/
theorem get_job_details_consecutive_403 (creds : List Credential) :
    ∀ (jid : Option String) (cookie xsrf : String) (doc : String) (st : Store) (ev : List Event),
    ∃ st2 ev2,
      get_job_details jid cookie xsrf
          (List.replicate creds.length (DetailResp.mk 403 none) ++ [DetailResp.mk 200 (some doc)])
          (Aux.mk creds st ev) =
        some (some doc, [], Aux.mk [] st2 ev2) ∧
      countAcquires ev2 = countAcquires ev + creds.length ∧
      countDetailCalls ev2 = countDetailCalls ev + creds.length + 1 := by
  induction creds with
  | nil =>
    intro jid cookie xsrf doc st ev
    refine ⟨st, ev ++ [Event.detailCall jid cookie xsrf], ?_, ?_, ?_⟩
    · simp [get_job_details, respOk]
    · simp [countAcquires, List.countP_append, List.countP_cons, Event.isAcquire]
    · simp [countDetailCalls, List.countP_append, List.countP_cons, Event.isDetailCall]
  | cons c creds ih =>
    intro jid cookie xsrf doc st ev
    obtain ⟨st2, ev2, heq, hacq, hdet⟩ :=
      ih jid c.cookie c.xsrf doc (save_credential st c)
        (ev ++ [Event.detailCall jid cookie xsrf, Event.acquire c,
                Event.saveCookieEv c.cookie c.xsrf, Event.saveXsrfEv c.xsrf])
    refine ⟨st2, ev2, ?_, ?_, ?_⟩
    · rw [List.length_cons, List.replicate_succ, List.cons_append, get_job_details_403_step]
      exact heq
    · rw [hacq]
      simp [countAcquires, List.countP_append, List.countP_cons, Event.isAcquire]
      omega
    · rw [hdet]
      simp [countDetailCalls, List.countP_append, List.countP_cons, Event.isDetailCall]
      omega

/-- C1: for a logical search or detail call whose first HTTP attempt yields
403 and whose post-refresh attempt yields 200, the call returns the successful
result, exactly one acquisition happens, and the fresh credential is persisted
(save_cookie then save_xsrf_token, visible both in the store and as save
events placed before the retry attempt in the trace). -/
theorem c1_auth_denial_recovery (cookie xsrf : String) (page : Nat)
    (mb : Option SearchBody) (body : SearchBody) (restQ : List SearchResp)
    (c : Credential) (cq : List Credential) (st : Store) (ev : List Event)
    (jid : Option String) (md : Option String) (doc : String) (restD : List DetailResp) :
    make_api_request cookie xsrf page
        (SearchResp.mk 403 mb :: SearchResp.mk 200 (some body) :: restQ)
        (Aux.mk (c :: cq) st ev) =
      some (body, c.cookie, c.xsrf, restQ,
        Aux.mk cq (save_credential st c)
          (ev ++ [Event.searchCall page cookie xsrf, Event.acquire c,
                  Event.saveCookieEv c.cookie c.xsrf, Event.saveXsrfEv c.xsrf,
                  Event.searchCall page c.cookie c.xsrf])) ∧
    get_job_details jid cookie xsrf
        (DetailResp.mk 403 md :: DetailResp.mk 200 (some doc) :: restD)
        (Aux.mk (c :: cq) st ev) =
      some (some doc, restD,
        Aux.mk cq (save_credential st c)
          (ev ++ [Event.detailCall jid cookie xsrf, Event.acquire c,
                  Event.saveCookieEv c.cookie c.xsrf, Event.saveXsrfEv c.xsrf,
                  Event.detailCall jid c.cookie c.xsrf])) := by
  constructor <;>
    simp [make_api_request, get_job_details, reload_cookie, obtain_cookies_via_selenium,
      save_credential, respOk]

/-- C2 counterexample: two consecutive 403 responses on one logical search
call trigger two refresh-and-retry cycles, not at most one. -/
theorem c2_single_retry_cex :
    (make_api_request "c0" "x0" 1
        [SearchResp.mk 403 none, SearchResp.mk 403 none,
         SearchResp.mk 200 (some (SearchBody.mk (some 0) none))]
        (Aux.mk [Credential.mk "ck1" "xt1", Credential.mk "ck2" "xt2"]
          (Store.mk none none) [])).map
      (fun r => countAcquires r.2.2.2.2.events) = some 2 ∧ ¬ (2 : Nat) ≤ 1 := by
  constructor <;> decide

/-- C2 amended: upon each 403 the client acquires a fresh credential, persists
it via save, and retries the same logical call with it; this cycle repeats on
every consecutive 403 with no bound (one acquisition per 403 and one final
successful attempt), for the search call and the detail call alike. -/
theorem c2_unbounded_refresh_amended (creds : List Credential) (cookie xsrf : String)
    (page : Nat) (body : SearchBody) (st : Store) (ev : List Event)
    (c : Credential) (cq : List Credential) (q : List SearchResp) (mb : Option SearchBody)
    (jid : Option String) (doc : String) :
    make_api_request cookie xsrf page (SearchResp.mk 403 mb :: q) (Aux.mk (c :: cq) st ev) =
      make_api_request c.cookie c.xsrf page q
        (Aux.mk cq (save_credential st c)
          (ev ++ [Event.searchCall page cookie xsrf, Event.acquire c,
                  Event.saveCookieEv c.cookie c.xsrf, Event.saveXsrfEv c.xsrf])) ∧
    (∃ c2 x2 st2 ev2,
      make_api_request cookie xsrf page
          (List.replicate creds.length (SearchResp.mk 403 none) ++ [SearchResp.mk 200 (some body)])
          (Aux.mk creds st ev) =
        some (body, c2, x2, [], Aux.mk [] st2 ev2) ∧
      countAcquires ev2 = countAcquires ev + creds.length ∧
      countSearchCalls ev2 = countSearchCalls ev + creds.length + 1) ∧
    (∃ st2 ev2,
      get_job_details jid cookie xsrf
          (List.replicate creds.length (DetailResp.mk 403 none) ++ [DetailResp.mk 200 (some doc)])
          (Aux.mk creds st ev) =
        some (some doc, [], Aux.mk [] st2 ev2) ∧
      countAcquires ev2 = countAcquires ev + creds.length ∧
      countDetailCalls ev2 = countDetailCalls ev + creds.length + 1) :=
  ⟨make_api_request_403_step cookie xsrf page mb q c cq st ev,
   make_api_request_consecutive_403 creds cookie xsrf page body st ev,
   get_job_details_consecutive_403 creds jid cookie xsrf doc st ev⟩

/-- C3 counterexample: get_job_details does not hand the refreshed credential
back (its result has no credential component), so after a detail fetch that
refreshed on 403, the pipeline issues the next detail call of the same page
with the old credential and acquires again: in a one-page run with two
listings whose detail fetches each script 403 then 200, two acquisitions
happen and the second listing is first attempted with the original
credential. -/
theorem c3_propagation_cex :
    (handle_pagination "c0" "x0"
        (CrawlState.mk
          [SearchResp.mk 200 (some (SearchBody.mk (some 2) none)),
           SearchResp.mk 200 (some (SearchBody.mk none (some
             [Job.mk (some "j1") none none none none none none none none none none none none none,
              Job.mk (some "j2") none none none none none none none none none none none none none])))]
          [DetailResp.mk 403 none, DetailResp.mk 200 (some "d1"),
           DetailResp.mk 403 none, DetailResp.mk 200 (some "d2")]
          (Aux.mk [Credential.mk "ck1" "xt1", Credential.mk "ck2" "xt2"]
            (Store.mk none none) [])
          [])).map
      (fun r => (countAcquires r.2.aux.events,
                 decide (Event.detailCall (some "j2") "c0" "x0" ∈ r.2.aux.events))) =
      some (2, true) := by
  decide

/-- C3 amended: the search call propagates the possibly-refreshed credential
back in its result, but the detail call does not: it returns only the
document, persisting any refreshed credential to the store alone, so within a
page the pipeline keeps calling with its old in-memory credential and
re-acquires on each subsequent 403 (here: two listings, two acquisitions, the
second detail call opening with the original credential). -/
theorem c3_propagation_amended (cookie xsrf : String) (page : Nat)
    (mb : Option SearchBody) (body : SearchBody) (restQ : List SearchResp)
    (cA cB : Credential) (cq : List Credential) (st : Store) (ev : List Event)
    (jid : Option String) (mdA mdB : Option String) (d1 d2 : String)
    (restD : List DetailResp) (j1 j2 : Job) (db : List Row) :
    make_api_request cookie xsrf page
        (SearchResp.mk 403 mb :: SearchResp.mk 200 (some body) :: restQ)
        (Aux.mk (cA :: cq) st ev) =
      some (body, cA.cookie, cA.xsrf, restQ,
        Aux.mk cq (save_credential st cA)
          (ev ++ [Event.searchCall page cookie xsrf, Event.acquire cA,
                  Event.saveCookieEv cA.cookie cA.xsrf, Event.saveXsrfEv cA.xsrf,
                  Event.searchCall page cA.cookie cA.xsrf])) ∧
    get_job_details jid cookie xsrf
        (DetailResp.mk 403 mdA :: DetailResp.mk 200 (some d1) :: restD)
        (Aux.mk (cA :: cq) st ev) =
      some (some d1, restD,
        Aux.mk cq (save_credential st cA)
          (ev ++ [Event.detailCall jid cookie xsrf, Event.acquire cA,
                  Event.saveCookieEv cA.cookie cA.xsrf, Event.saveXsrfEv cA.xsrf,
                  Event.detailCall jid cA.cookie cA.xsrf])) ∧
    processJobs cookie xsrf [j1, j2]
        (DetailResp.mk 403 mdA :: DetailResp.mk 200 (some d1) ::
         DetailResp.mk 403 mdB :: DetailResp.mk 200 (some d2) :: restD)
        (Aux.mk (cA :: cB :: cq) st ev) db =
      some (restD,
        Aux.mk cq (save_credential (save_credential st cA) cB)
          (ev ++ [Event.detailCall j1.id cookie xsrf, Event.acquire cA,
                  Event.saveCookieEv cA.cookie cA.xsrf, Event.saveXsrfEv cA.xsrf,
                  Event.detailCall j1.id cA.cookie cA.xsrf,
                  Event.detailCall j2.id cookie xsrf, Event.acquire cB,
                  Event.saveCookieEv cB.cookie cB.xsrf, Event.saveXsrfEv cB.xsrf,
                  Event.detailCall j2.id cB.cookie cB.xsrf]),
        upsert (upsert db (rowOf j1 (some d1))) (rowOf j2 (some d2))) := by
  refine ⟨?_, ?_, ?_⟩ <;>
    simp [processJobs, make_api_request, get_job_details, reload_cookie,
      obtain_cookies_via_selenium, save_credential, respOk]

/-- C9 counterexample: a detail response with a success status but an
unparseable body makes response.json() raise, so get_job_details propagates an
exception (none) instead of recording an absent detail, and the whole page run
aborts rather than continuing. -/
theorem c9_detail_failure_cex :
    get_job_details (some "j1") "c0" "x0" [DetailResp.mk 200 none]
        (Aux.mk [] (Store.mk none none) []) = none ∧
    handle_pagination "c0" "x0"
        (CrawlState.mk
          [SearchResp.mk 200 (some (SearchBody.mk (some 1) none)),
           SearchResp.mk 200 (some (SearchBody.mk none (some
             [Job.mk (some "j1") none none none none none none none none none none none none none])))]
          [DetailResp.mk 200 none]
          (Aux.mk [] (Store.mk none none) []) []) = none := by
  constructor <;> decide

/-- C9 amended: a detail response with a non-ok status other than 403 yields
an absent document; the listing is still assembled with its details column
serialized as null and upserted, and the rest of the page proceeds; but a
success-status response with an unparseable body raises (none), aborting the
run, instead of being recorded as absent. -/
theorem c9_detail_failure_amended (jid : Option String) (cookie xsrf : String)
    (status : Nat) (mb : Option String) (restD : List DetailResp) (a : Aux)
    (j1 j2 : Job) (doc2 : String) (db : List Row)
    (h403 : status ≠ 403) (hok : respOk status = false) :
    get_job_details jid cookie xsrf (DetailResp.mk status mb :: restD) a =
      some (none, restD, { a with events := a.events ++ [Event.detailCall jid cookie xsrf] }) ∧
    processJobs cookie xsrf [j1, j2]
        (DetailResp.mk status mb :: DetailResp.mk 200 (some doc2) :: restD) a db =
      some (restD,
        { a with events := a.events ++ [Event.detailCall j1.id cookie xsrf,
                                        Event.detailCall j2.id cookie xsrf] },
        upsert (upsert db (rowOf j1 none)) (rowOf j2 (some doc2))) ∧
    (rowOf j1 none).details = "null" ∧
    get_job_details jid cookie xsrf (DetailResp.mk 200 none :: restD) a = none := by
  have hlt : ¬ status < 400 := by simpa [respOk] using hok
  refine ⟨?_, ?_, rfl, ?_⟩ <;>
    simp [processJobs, get_job_details, respOk, h403, hlt]

/-- Witness for c9_detail_failure_amended at status 500 and concrete inputs. -/
theorem c9_detail_failure_amended_w :
    (get_job_details (some "j") "c" "x" [DetailResp.mk 500 none]
        (Aux.mk [] (Store.mk none none) []) =
      some (none, [],
        { Aux.mk [] (Store.mk none none) ([] : List Event) with
            events := ([] : List Event) ++ [Event.detailCall (some "j") "c" "x"] }) ∧
    processJobs "c" "x"
        [Job.mk none none none none none none none none none none none none none none,
         Job.mk none none none none none none none none none none none none none none]
        (DetailResp.mk 500 none :: DetailResp.mk 200 (some "doc") :: [])
        (Aux.mk [] (Store.mk none none) []) [] =
      some ([],
        { Aux.mk [] (Store.mk none none) ([] : List Event) with
            events := ([] : List Event) ++
              [Event.detailCall (Job.mk none none none none none none none none none none none none none none).id "c" "x",
               Event.detailCall (Job.mk none none none none none none none none none none none none none none).id "c" "x"] },
        upsert (upsert []
          (rowOf (Job.mk none none none none none none none none none none none none none none) none))
          (rowOf (Job.mk none none none none none none none none none none none none none none) (some "doc"))) ∧
    (rowOf (Job.mk none none none none none none none none none none none none none none) none).details = "null" ∧
    get_job_details (some "j") "c" "x" [DetailResp.mk 200 none]
        (Aux.mk [] (Store.mk none none) []) = none) :=
  c9_detail_failure_amended (some "j") "c" "x" 500 none [] (Aux.mk [] (Store.mk none none) [])
    (Job.mk none none none none none none none none none none none none none none)
    (Job.mk none none none none none none none none none none none none none none)
    "doc" [] (by decide) (by decide)

/-- C10: a first search response without a numberRecords key reads as a total
of 0, so no page is crawled, nothing is upserted, no commit happens and the
run returns an empty result normally; and a page response without a jvs key
reads as an empty page, so that page issues no detail call and upserts
nothing (its commit still happens). -/
theorem c10_missing_keys_default (cookie xsrf : String) (restQ : List SearchResp)
    (dq : List DetailResp) (a : Aux) (db : List Row) (mj mj2 : Option (List Job)) (n2 : Option Nat)
    (restQ2 : List SearchResp) (dq2 : List DetailResp) (a2 : Aux) (db2 : List Row) :
    handle_pagination cookie xsrf
        (CrawlState.mk (SearchResp.mk 200 (some (SearchBody.mk none mj)) :: restQ) dq a db) =
      some ([], CrawlState.mk restQ dq
        { a with events := a.events ++ [Event.searchCall 1 cookie xsrf] } db) ∧
    handle_pagination cookie xsrf
        (CrawlState.mk
          (SearchResp.mk 200 (some (SearchBody.mk (some 1) mj2)) ::
           SearchResp.mk 200 (some (SearchBody.mk n2 none)) :: restQ2) dq2 a2 db2) =
      some ([], CrawlState.mk restQ2 dq2
        { a2 with events := a2.events ++ [Event.searchCall 1 cookie xsrf,
                                          Event.searchCall 1 cookie xsrf, Event.commit] } db2) := by
  constructor <;>
    simp [handle_pagination, crawlPages, processJobs, make_api_request, total_pages, List.range']

/-- Processing a page whose detail fetches all succeed with parseable bodies
consumes one detail response per listing, records one detail attempt per
listing, leaves the refresh state untouched, and upserts one row per
listing. -/
theorem processJobs_all_ok (cookie xsrf : String) (jobs : List (Job × String)) :
    ∀ (restD : List DetailResp) (a : Aux) (db : List Row),
      processJobs cookie xsrf (jobs.map Prod.fst)
          (jobs.map (fun p => DetailResp.mk 200 (some p.2)) ++ restD) a db =
        some (restD,
          { a with events := a.events ++
              jobs.map (fun p => Event.detailCall p.1.id cookie xsrf) },
          jobs.foldl (fun d p => upsert d (rowOf p.1 (some p.2))) db) := by
  induction jobs with
  | nil => intro restD a db; simp [processJobs]
  | cons p jobs ih =>
    intro restD a db
    simp only [List.map_cons, List.cons_append, processJobs, get_job_details_ok_step]
    rw [ih]
    simp

/-- C4 counterexample: a crawl whose first response reports 60 records (2
pages of 50) issues 3 search calls, not 2 — the initial total-learning call
plus one call per page, page 1 being fetched twice. -/
theorem c4_search_count_cex :
    (handle_pagination "c0" "x0"
        (CrawlState.mk
          [SearchResp.mk 200 (some (SearchBody.mk (some 60) none)),
           SearchResp.mk 200 (some (SearchBody.mk none (some
             [Job.mk (some "a") none none none none none none none none none none none none none]))),
           SearchResp.mk 200 (some (SearchBody.mk none (some
             [Job.mk (some "b") none none none none none none none none none none none none none])))]
          [DetailResp.mk 200 (some "d1"), DetailResp.mk 200 (some "d2")]
          (Aux.mk [] (Store.mk none none) []) [])).map
      (fun r => countSearchCalls r.2.aux.events) = some 3 ∧ (3 : Nat) ≠ 2 := by
  constructor <;> decide

/-- C4 amended: for a crawl whose first search response reports 60 records
(page size 50, hence 2 pages) and whose responses all succeed, the pipeline
issues exactly 3 search calls (the initial total-learning call plus one per
page, page 1 twice), exactly 1 detail call per listing of the crawled pages,
exactly 2 commits (one per page), and no acquisition. -/
theorem c4_crawl_counts_amended (cookie xsrf : String) (jobs1 jobs2 : List (Job × String))
    (mj0 : Option (List Job)) (n1 n2 : Option Nat) (cq : List Credential) (st : Store)
    (restQ : List SearchResp) (restD : List DetailResp) (db : List Row) :
    ∃ ev2 db2,
      handle_pagination cookie xsrf
          (CrawlState.mk
            (SearchResp.mk 200 (some (SearchBody.mk (some 60) mj0)) ::
             SearchResp.mk 200 (some (SearchBody.mk n1 (some (jobs1.map Prod.fst)))) ::
             SearchResp.mk 200 (some (SearchBody.mk n2 (some (jobs2.map Prod.fst)))) :: restQ)
            (jobs1.map (fun p => DetailResp.mk 200 (some p.2)) ++
             jobs2.map (fun p => DetailResp.mk 200 (some p.2)) ++ restD)
            (Aux.mk cq st []) db) =
        some (jobs1.map Prod.fst ++ jobs2.map Prod.fst,
          CrawlState.mk restQ restD (Aux.mk cq st ev2) db2) ∧
      countSearchCalls ev2 = 3 ∧
      countDetailCalls ev2 = jobs1.length + jobs2.length ∧
      countCommits ev2 = 2 ∧
      countAcquires ev2 = 0 := by
  refine ⟨[Event.searchCall 1 cookie xsrf, Event.searchCall 1 cookie xsrf] ++
      jobs1.map (fun p => Event.detailCall p.1.id cookie xsrf) ++
      [Event.commit, Event.searchCall 2 cookie xsrf] ++
      jobs2.map (fun p => Event.detailCall p.1.id cookie xsrf) ++
      [Event.commit],
    jobs2.foldl (fun d p => upsert d (rowOf p.1 (some p.2)))
      (jobs1.foldl (fun d p => upsert d (rowOf p.1 (some p.2))) db),
    ?_, ?_, ?_, ?_, ?_⟩
  · simp [handle_pagination, crawlPages, make_api_request_ok_step, processJobs_all_ok,
      total_pages, List.range']
  · simp [countSearchCalls, List.countP_append, List.countP_cons, List.countP_map,
      Event.isSearchCall, Function.comp_def]
  · simp [countDetailCalls, List.countP_append, List.countP_cons, List.countP_map,
      Event.isDetailCall, Function.comp_def]
  · simp [countCommits, List.countP_append, List.countP_cons, List.countP_map,
      Event.isCommit, Function.comp_def]
  · simp [countAcquires, List.countP_append, List.countP_cons, List.countP_map,
      Event.isAcquire, Function.comp_def]
